import Mathlib

/-!
Verification development for the slide-keyframe detection backend
(`backend/video_keyframes.py` and `backend/keyframes_models.py`).

The Python source is embedded shallowly:

* byte strings become `List Nat` (one entry per byte value);
* raster frames are abstract: the embedding is parameterised by a type `Raw`
  of raw decoded frames and a type `Img` of preprocessed (downscaled,
  luminance, blurred) frames, together with the image operations the source
  delegates to OpenCV / skimage (`preprocess`, `ssim`, `ema`, `encodeImage`,
  `rotate`).  Every structural decision of the Python code (state updates,
  comparisons, branch order, Python truthiness where it matters) is
  translated literally;
* SSIM scores and frame rates, `float` in the source, are modelled as `ℚ`;
* timestamps, Python `int`, are modelled as `Int` (arbitrary precision in
  both).

Mutation is turned into explicit state passing: each method returns the
updated object together with its Python return value.
-/

namespace VideoKeyframes

/-- Byte strings (`bytes` in Python) as lists of byte values. -/
abbrev Bytes := List Nat

/-! ## VideoAccumulator (`video_keyframes.py` lines 51-91) -/

/-- The EBML header marker `b'\x1a\x45\xdf\xa3'` that identifies a WebM
initialization segment. -/
def ebmlMarker : Bytes := [26, 69, 223, 163]

/-- `len(chunk_bytes) >= 4 and chunk_bytes[:4] == b'\x1a\x45\xdf\xa3'`. -/
def chunkIsInit (chunk_bytes : Bytes) : Bool :=
  decide (4 ≤ chunk_bytes.length) && decide (chunk_bytes.take 4 = ebmlMarker)

/-- State of `VideoAccumulator`.  `init_segment` is `Optional[bytes]`,
`media_chunks` a Python list, `max_chunks` the retention bound. -/
structure VideoAccumulator where
  init_segment : Option Bytes := none
  media_chunks : List Bytes := []
  max_chunks : Nat := 5
  has_init : Bool := false
  total_chunks_received : Nat := 0
deriving DecidableEq, Repr

/-- Python truthiness of `self.init_segment` (`Optional[bytes]`): truthy iff
not `None` and non-empty. -/
def initSegmentTruthy (a : VideoAccumulator) : Bool :=
  match a.init_segment with
  | some i => decide (i ≠ [])
  | none => false

/-- `VideoAccumulator.add_chunk`.  Returns the updated accumulator together
with the Python return value (`Optional[bytes]`). -/
def add_chunk (a : VideoAccumulator) (chunk_bytes : Bytes) :
    VideoAccumulator × Option Bytes :=
  let a := { a with total_chunks_received := a.total_chunks_received + 1 }
  if chunkIsInit chunk_bytes then
    ({ a with init_segment := some chunk_bytes, media_chunks := [], has_init := true },
      some chunk_bytes)
  else if a.has_init && initSegmentTruthy a then
    match a.init_segment with
    | some init =>
      let media := a.media_chunks ++ [chunk_bytes]
      let media := if a.max_chunks < media.length then media.drop 1 else media
      ({ a with media_chunks := media }, some (init ++ media.flatten))
    | none => (a, none)
  else
    (a, none)

/-- Feed a list of chunks through an accumulator, collecting the return
value of every `add_chunk` call. -/
def accRun (a : VideoAccumulator) : List Bytes → List (Option Bytes)
  | [] => []
  | c :: rest =>
    let r := add_chunk a c
    r.2 :: accRun r.1 rest

/-- Final accumulator state after feeding a list of chunks. -/
def accRunEnd (a : VideoAccumulator) (chunks : List Bytes) : VideoAccumulator :=
  chunks.foldl (fun a c => (add_chunk a c).1) a

/-! ## Data model (`keyframes_models.py`) -/

/-- `SlideDetectionParams` with the source's default values
(floats rendered as the exact rationals they denote). -/
structure SlideDetectionParams where
  tau_stable : ℚ := mkRat 9 10
  tau_change : ℚ := mkRat 3 4
  min_stable_duration_ms : Int := 1000
  transition_confirm_frames : Nat := 8
  cooldown_ms : Int := 1500
  ema_alpha : ℚ := mkRat 3 20
  downscale_width : Nat := 320
  downscale_height : Nat := 180
  slide_change_ssim : ℚ := mkRat 7 10
  min_slide_duration_ms : Int := 1500
deriving DecidableEq, Repr

/-- The `mkRat` spellings of the default parameters (chosen because they
evaluate under kernel reduction) denote exactly the source's float
defaults `0.90`, `0.75`, `0.15`, `0.70`. -/
theorem slideDetectionParams_defaults :
    ({} : SlideDetectionParams).tau_stable = 9/10 ∧
    ({} : SlideDetectionParams).tau_change = 3/4 ∧
    ({} : SlideDetectionParams).ema_alpha = 3/20 ∧
    ({} : SlideDetectionParams).slide_change_ssim = 7/10 := by
  refine ⟨?_, ?_, ?_, ?_⟩ <;> simp only [Rat.mkRat_eq_div] <;> norm_num

/-- The metadata dictionary as used by the pipeline: the source reads the
keys `capturedAt`, `orientation` and `sequence` (`orientation` is held here
already converted to an integer; the orchestrator's string-to-int parse of
the raw value is outside the claims). -/
structure ChunkMetadata where
  capturedAt : Option String := none
  orientation : Option Int := none
  sequence : Option Int := none
deriving DecidableEq, Repr

/-- `SlideCandidate`.  `image_bytes` holds the JPEG encoding produced at
lock time.  The randomly generated `id`, and the storage / transcript
fields that are only written by collaborators outside the detector, are
omitted: no claim mentions them. -/
structure SlideCandidate where
  lecture_id : String
  start_ms : Int
  lock_ssim : ℚ
  image_bytes : Bytes
  metadata : ChunkMetadata
  captured_at : Option String := none
  end_ms : Option Int := none
deriving DecidableEq, Repr

/-! ## SlideKeyframeDetector (`video_keyframes.py` lines 94-276)

The detector is parameterised by the image operations it delegates to
OpenCV / scikit-image:

* `preprocess : Raw → Img` — `_preprocess` (resize, luminance, blur);
* `ssim : Img → Img → ℚ` — `structural_similarity` on processed frames;
* `ema : ℚ → Img → Img → Img` — `alpha * new + (1 - alpha) * old` on
  image arrays (`ema alpha new old`);
* `encodeImage : Raw → Bytes` — `_encode_image` (JPEG encoding; modelled
  as total, i.e. for runs on which `cv2.imencode` succeeds).
-/

/-- The detector's `_state` string: `"searching"` or `"locked"`. -/
inductive DetState where
  | searching
  | locked
deriving DecidableEq, Repr

/-- State of `SlideKeyframeDetector`.  `frame_count` models the lazily
created `_frame_count` attribute (`none` before the `hasattr` check first
fails). -/
structure SlideKeyframeDetector (Img : Type) where
  lecture_id : String
  params : SlideDetectionParams
  baseline : Option Img := none
  state : DetState := DetState.searching
  stable_since_ms : Option Int := none
  last_lock_ms : Option Int := none
  transition_frames : Nat := 0
  current_candidate : Option SlideCandidate := none
  locked_reference : Option Img := none
  pending_emit : List SlideCandidate := []
  last_timestamp_ms : Option Int := none
  frame_count : Option Nat := none
deriving DecidableEq, Repr

/-- `SlideKeyframeDetector.__init__`. -/
def detInit (Img : Type) (lecture_id : String) (params : SlideDetectionParams) :
    SlideKeyframeDetector Img :=
  { lecture_id := lecture_id, params := params }

/-- `SlideKeyframeDetector._lock_slide` (lines 126-150): no-op when a
current candidate already exists; otherwise creates the candidate, records
the lock time, switches to `locked` and stores the locked reference. -/
def lock_slide {Raw Img : Type} (encodeImage : Raw → Bytes)
    (d : SlideKeyframeDetector Img) (frame : Raw) (processed : Img)
    (timestamp_ms : Int) (ssim_score : ℚ) (metadata : ChunkMetadata) :
    SlideKeyframeDetector Img :=
  if d.current_candidate ≠ none then d
  else
    { d with
      current_candidate := some
        { lecture_id := d.lecture_id
          start_ms := timestamp_ms
          lock_ssim := ssim_score
          image_bytes := encodeImage frame
          metadata := metadata
          captured_at := metadata.capturedAt }
      last_lock_ms := some timestamp_ms
      state := DetState.locked
      locked_reference := some processed }

/-- The `searching` branch of `process_frame` (lines 191-211); receives the
already computed `ssim_baseline`. -/
def searchingStep {Raw Img : Type} (encodeImage : Raw → Bytes)
    (d : SlideKeyframeDetector Img) (frame : Raw) (processed : Img)
    (timestamp_ms : Int) (ssim_baseline : ℚ) (metadata : ChunkMetadata) :
    SlideKeyframeDetector Img × List SlideCandidate :=
  if d.params.tau_stable ≤ ssim_baseline then
    let stable_since := d.stable_since_ms.getD timestamp_ms
    let d := { d with stable_since_ms := some stable_since }
    let stable_duration := timestamp_ms - stable_since
    let cooldown_passed : Bool :=
      match d.last_lock_ms with
      | none => true
      | some l => decide (d.params.cooldown_ms ≤ timestamp_ms - l)
    if decide (d.params.min_stable_duration_ms ≤ stable_duration) && cooldown_passed then
      let candidate_start := stable_since
      let d := lock_slide encodeImage d frame processed candidate_start ssim_baseline metadata
      if d.pending_emit ≠ [] then ({ d with pending_emit := [] }, d.pending_emit)
      else (d, [])
    else (d, [])
  else
    ({ d with stable_since_ms := none }, [])

/-- The transition-counter update of the `locked` branch (lines 219-242):
increment on a detected change once the slide has been on screen long
enough, reset to zero otherwise.  `self._last_lock_ms or timestamp_ms`
uses Python truthiness: a stored lock time of `0` falls through to
`timestamp_ms`. -/
def lockedCounterUpdate {Img : Type} (d : SlideKeyframeDetector Img)
    (timestamp_ms : Int) (locked_similarity ssim_baseline : ℚ) :
    SlideKeyframeDetector Img :=
  let change_detected : Bool :=
    decide (locked_similarity ≤ d.params.slide_change_ssim) &&
    decide (ssim_baseline ≤ d.params.tau_change)
  if change_detected then
    let lock_ref : Int :=
      match d.last_lock_ms with
      | some l => if l ≠ 0 then l else timestamp_ms
      | none => timestamp_ms
    let elapsed := timestamp_ms - lock_ref
    if d.params.min_slide_duration_ms ≤ elapsed then
      { d with transition_frames := d.transition_frames + 1 }
    else
      { d with transition_frames := 0 }
  else
    { d with transition_frames := 0 }

/-- The `locked` branch of `process_frame` (lines 212-258); receives the
already computed `ssim_baseline`. -/
def lockedStep {Img : Type} (ssim : Img → Img → ℚ)
    (d : SlideKeyframeDetector Img) (processed : Img)
    (timestamp_ms : Int) (ssim_baseline : ℚ) :
    SlideKeyframeDetector Img × List SlideCandidate :=
  let locked_similarity :=
    match d.locked_reference with
    | some r => ssim r processed
    | none => ssim_baseline
  let d := lockedCounterUpdate d timestamp_ms locked_similarity ssim_baseline
  if decide (d.params.transition_confirm_frames ≤ d.transition_frames) &&
      d.current_candidate.isSome then
    match d.current_candidate with
    | some c =>
      ({ d with
          pending_emit := d.pending_emit ++ [{ c with end_ms := some timestamp_ms }]
          current_candidate := none
          state := DetState.searching
          stable_since_ms := none
          transition_frames := 0
          locked_reference := none
          baseline := some processed }, [])
    | none => (d, [])
  else (d, [])

/-- `SlideKeyframeDetector.process_frame` (lines 152-260).  Returns the
updated detector and the list of completed candidates the call returns. -/
def process_frame {Raw Img : Type} (preprocess : Raw → Img) (ssim : Img → Img → ℚ)
    (ema : ℚ → Img → Img → Img) (encodeImage : Raw → Bytes)
    (d : SlideKeyframeDetector Img) (frame : Raw) (timestamp_ms : Int)
    (metadata : ChunkMetadata) :
    SlideKeyframeDetector Img × List SlideCandidate :=
  let d := { d with last_timestamp_ms := some timestamp_ms }
  let processed := preprocess frame
  match d.baseline with
  | none => ({ d with baseline := some processed }, [])
  | some baseline =>
    let ssim_baseline := ssim baseline processed
    let alpha :=
      if d.state = DetState.locked then d.params.ema_alpha * (1/4) else d.params.ema_alpha
    let d := { d with baseline := some (ema alpha processed baseline) }
    let d :=
      { d with frame_count := some (match d.frame_count with | some n => n + 1 | none => 0) }
    match d.state with
    | DetState.searching =>
      searchingStep encodeImage d frame processed timestamp_ms ssim_baseline metadata
    | DetState.locked =>
      lockedStep ssim d processed timestamp_ms ssim_baseline

/-- Closing of a still-open candidate in `flush` (lines 269-271):
`end_ms = self._last_timestamp_ms or self._current_candidate.start_ms` uses
Python truthiness, so a stored last timestamp of `0` falls through to
`start_ms`. -/
def flushClose (c : SlideCandidate) (last_timestamp_ms : Option Int) : SlideCandidate :=
  if c.end_ms = none then
    let fallback : Int :=
      match last_timestamp_ms with
      | some t => if t ≠ 0 then t else c.start_ms
      | none => c.start_ms
    { c with end_ms := some fallback }
  else c

/-- `SlideKeyframeDetector.flush` (lines 262-276): release the queued
candidates, then the current candidate (closing it first when still open),
and clear the locked reference.  (The source's `if self._pending_emit:`
guard merely avoids extending the result by an empty list and is dropped
as a no-op.) -/
def flush {Img : Type} (d : SlideKeyframeDetector Img) :
    SlideKeyframeDetector Img × List SlideCandidate :=
  let completed := d.pending_emit
  match d.current_candidate with
  | some c =>
    ({ d with pending_emit := [], current_candidate := none, locked_reference := none },
      completed ++ [flushClose c d.last_timestamp_ms])
  | none =>
    ({ d with pending_emit := [], locked_reference := none }, completed)

/-- One frame-processing input: the arguments of a `process_frame` call. -/
structure DetInput (Raw : Type) where
  frame : Raw
  timestamp_ms : Int
  metadata : ChunkMetadata
deriving DecidableEq, Repr

/-- Candidate-bookkeeping invariant of a detector state: while `searching`
there is no current candidate; every queued (pending-emit) candidate is
already terminated; the current candidate, when present, is still open. -/
def DetInv {Img : Type} (d : SlideKeyframeDetector Img) : Prop :=
  (d.state = DetState.searching → d.current_candidate = none) ∧
  (∀ c ∈ d.pending_emit, c.end_ms ≠ none) ∧
  (∀ c, d.current_candidate = some c → c.end_ms = none)

theorem detInit_inv {Img : Type} (lecture_id : String) (params : SlideDetectionParams) :
    DetInv (detInit Img lecture_id params) := by
  refine ⟨fun _ => rfl, ?_, ?_⟩ <;> simp [detInit]

/-- Branch analysis of `searchingStep`: how it can move the candidate
bookkeeping, assuming no current candidate (which `DetInv` guarantees in
the `searching` state). -/
theorem searchingStep_props {Raw Img : Type} (encodeImage : Raw → Bytes)
    (d : SlideKeyframeDetector Img) (frame : Raw) (processed : Img)
    (timestamp_ms : Int) (ssim_baseline : ℚ) (metadata : ChunkMetadata)
    (hcur : d.current_candidate = none) :
    let r := searchingStep encodeImage d frame processed timestamp_ms ssim_baseline metadata
    (r.1.state = DetState.searching → r.1.current_candidate = none) ∧
    (∀ c ∈ r.1.pending_emit, c ∈ d.pending_emit) ∧
    (∀ c, r.1.current_candidate = some c → c.end_ms = none) ∧
    (∀ c ∈ r.2, c ∈ d.pending_emit) ∧
    (r.2 ≠ [] → r.1.state = DetState.locked) ∧
    (∀ c ∈ d.pending_emit, c ∈ r.1.pending_emit ∨ c ∈ r.2) := by
  unfold searchingStep lock_slide
  dsimp only
  split
  · simp only [hcur, ne_eq, not_true_eq_false, reduceIte, not_false_eq_true]
    split
    · split
      · exact ⟨by simp, by simp, fun c hc => by simp at hc; simp [← hc],
          fun c hc => hc, fun _ => by simp, fun c hc => Or.inr hc⟩
      · exact ⟨by simp, fun c hc => hc, fun c hc => by simp at hc; simp [← hc],
          by simp, by simp, fun c hc => Or.inl hc⟩
    · exact ⟨fun _ => rfl, fun c hc => hc, fun c hc => by simp at hc,
        by simp, by simp, fun c hc => Or.inl hc⟩
  · exact ⟨fun _ => hcur, fun c hc => hc, fun c hc => by simp [hcur] at hc,
      by simp, by simp, fun c hc => Or.inl hc⟩

/-- `lockedCounterUpdate` only touches the transition counter. -/
theorem lockedCounterUpdate_fields {Img : Type} (d : SlideKeyframeDetector Img)
    (timestamp_ms : Int) (locked_similarity ssim_baseline : ℚ) :
    let e := lockedCounterUpdate d timestamp_ms locked_similarity ssim_baseline
    e.state = d.state ∧ e.current_candidate = d.current_candidate ∧
    e.pending_emit = d.pending_emit ∧ e.params = d.params := by
  unfold lockedCounterUpdate
  dsimp only
  split
  · split <;> exact ⟨rfl, rfl, rfl, rfl⟩
  · exact ⟨rfl, rfl, rfl, rfl⟩

/-- Branch analysis of `lockedStep`: it never returns candidates, and it
either keeps state, current candidate and queue unchanged, or confirms the
open candidate, closing it with the current timestamp, queueing it and
reverting to `searching`. -/
theorem lockedStep_cases {Img : Type} (ssim : Img → Img → ℚ)
    (d : SlideKeyframeDetector Img) (processed : Img)
    (timestamp_ms : Int) (ssim_baseline : ℚ) :
    let r := lockedStep ssim d processed timestamp_ms ssim_baseline
    (r.2 = [] ∧ r.1.state = d.state ∧
      r.1.current_candidate = d.current_candidate ∧
      r.1.pending_emit = d.pending_emit) ∨
    (r.2 = [] ∧ r.1.state = DetState.searching ∧ r.1.current_candidate = none ∧
      (∃ c0, d.current_candidate = some c0 ∧
        r.1.pending_emit = d.pending_emit ++ [{ c0 with end_ms := some timestamp_ms }])) := by
  have hf := lockedCounterUpdate_fields d timestamp_ms
    (match d.locked_reference with
     | some r => ssim r processed
     | none => ssim_baseline) ssim_baseline
  obtain ⟨hst, hcu, hpe, -⟩ := hf
  unfold lockedStep
  dsimp only
  split
  · rename_i hcond
    cases hc : (lockedCounterUpdate d timestamp_ms
        (match d.locked_reference with
         | some r => ssim r processed
         | none => ssim_baseline) ssim_baseline).current_candidate with
    | none => rw [hc] at hcond; simp at hcond
    | some c0 =>
      right
      refine ⟨rfl, rfl, rfl, c0, ?_, ?_⟩
      · rw [← hcu, hc]
      · dsimp only
        rw [hpe]
  · left
    exact ⟨rfl, hst, hcu, hpe⟩

/-- The bookkeeping `process_frame` performs before branching on the
state, given the new baseline image: record the last timestamp, update the
EMA baseline, bump the frame counter. -/
def detBookkeep {Img : Type} (d : SlideKeyframeDetector Img) (timestamp_ms : Int)
    (newBaseline : Img) : SlideKeyframeDetector Img :=
  { d with
    last_timestamp_ms := some timestamp_ms
    baseline := some newBaseline
    frame_count := some (match d.frame_count with | some n => n + 1 | none => 0) }

theorem detBookkeep_fields {Img : Type} (d : SlideKeyframeDetector Img)
    (timestamp_ms : Int) (x : Img) :
    (detBookkeep d timestamp_ms x).state = d.state ∧
    (detBookkeep d timestamp_ms x).current_candidate = d.current_candidate ∧
    (detBookkeep d timestamp_ms x).pending_emit = d.pending_emit ∧
    (detBookkeep d timestamp_ms x).stable_since_ms = d.stable_since_ms ∧
    (detBookkeep d timestamp_ms x).last_lock_ms = d.last_lock_ms ∧
    (detBookkeep d timestamp_ms x).params = d.params :=
  ⟨rfl, rfl, rfl, rfl, rfl, rfl⟩

/-- Reduction of `process_frame` on the very first frame: it only seeds
the baseline (and records the timestamp) and returns nothing. -/
theorem process_frame_eq_none {Raw Img : Type} (preprocess : Raw → Img)
    (ssim : Img → Img → ℚ) (ema : ℚ → Img → Img → Img) (encodeImage : Raw → Bytes)
    (d : SlideKeyframeDetector Img) (frame : Raw) (timestamp_ms : Int)
    (metadata : ChunkMetadata) (hb : d.baseline = none) :
    process_frame preprocess ssim ema encodeImage d frame timestamp_ms metadata =
      ({ d with last_timestamp_ms := some timestamp_ms,
                baseline := some (preprocess frame) }, []) := by
  unfold process_frame
  dsimp only
  rw [hb]

/-- Reduction of `process_frame` in the `searching` state. -/
theorem process_frame_eq_searching {Raw Img : Type} (preprocess : Raw → Img)
    (ssim : Img → Img → ℚ) (ema : ℚ → Img → Img → Img) (encodeImage : Raw → Bytes)
    (d : SlideKeyframeDetector Img) (frame : Raw) (timestamp_ms : Int)
    (metadata : ChunkMetadata) (b : Img) (hb : d.baseline = some b)
    (hs : d.state = DetState.searching) :
    process_frame preprocess ssim ema encodeImage d frame timestamp_ms metadata =
      searchingStep encodeImage
        (detBookkeep d timestamp_ms (ema d.params.ema_alpha (preprocess frame) b))
        frame (preprocess frame) timestamp_ms (ssim b (preprocess frame)) metadata := by
  unfold process_frame detBookkeep
  dsimp only
  rw [hb]
  dsimp only
  rw [hs]
  simp only [reduceCtorEq, reduceIte]

/-- Reduction of `process_frame` in the `locked` state (the EMA rate is
quartered). -/
theorem process_frame_eq_locked {Raw Img : Type} (preprocess : Raw → Img)
    (ssim : Img → Img → ℚ) (ema : ℚ → Img → Img → Img) (encodeImage : Raw → Bytes)
    (d : SlideKeyframeDetector Img) (frame : Raw) (timestamp_ms : Int)
    (metadata : ChunkMetadata) (b : Img) (hb : d.baseline = some b)
    (hs : d.state = DetState.locked) :
    process_frame preprocess ssim ema encodeImage d frame timestamp_ms metadata =
      lockedStep ssim
        (detBookkeep d timestamp_ms (ema (d.params.ema_alpha * (1/4)) (preprocess frame) b))
        (preprocess frame) timestamp_ms (ssim b (preprocess frame)) := by
  unfold process_frame detBookkeep
  dsimp only
  rw [hb]
  dsimp only
  rw [hs]
  simp only [reduceIte]

/-- Master step lemma: one `process_frame` call preserves `DetInv`, only
ever returns terminated candidates, returns a non-empty list only on a
searching-to-locked transition (a new lock), and moves queued candidates
along unchanged (they either stay queued or are returned as-is). -/
theorem process_frame_props {Raw Img : Type} (preprocess : Raw → Img)
    (ssim : Img → Img → ℚ) (ema : ℚ → Img → Img → Img) (encodeImage : Raw → Bytes)
    (d : SlideKeyframeDetector Img) (frame : Raw) (timestamp_ms : Int)
    (metadata : ChunkMetadata) (h : DetInv d) :
    let r := process_frame preprocess ssim ema encodeImage d frame timestamp_ms metadata
    DetInv r.1 ∧
    (∀ c ∈ r.2, c.end_ms ≠ none) ∧
    (r.2 ≠ [] → d.state = DetState.searching ∧ r.1.state = DetState.locked) ∧
    (∀ c ∈ d.pending_emit, c ∈ r.1.pending_emit ∨ c ∈ r.2) := by
  obtain ⟨h1, h2, h3⟩ := h
  cases hb : d.baseline with
  | none =>
    rw [process_frame_eq_none preprocess ssim ema encodeImage d frame timestamp_ms metadata hb]
    exact ⟨⟨fun hsr => h1 hsr, h2, h3⟩, by simp, by simp, fun c hc => Or.inl hc⟩
  | some b =>
    cases hs : d.state with
    | searching =>
      rw [process_frame_eq_searching preprocess ssim ema encodeImage d frame
        timestamp_ms metadata b hb hs]
      have hcur : d.current_candidate = none := h1 hs
      obtain ⟨p1, p2, p3, p4, p5, p6⟩ := searchingStep_props encodeImage
        (detBookkeep d timestamp_ms (ema d.params.ema_alpha (preprocess frame) b))
        frame (preprocess frame) timestamp_ms (ssim b (preprocess frame)) metadata hcur
      exact ⟨⟨p1, fun c hc => h2 c (p2 c hc), p3⟩, fun c hc => h2 c (p4 c hc),
        fun hne => ⟨rfl, p5 hne⟩, fun c hc => p6 c hc⟩
    | locked =>
      rw [process_frame_eq_locked preprocess ssim ema encodeImage d frame
        timestamp_ms metadata b hb hs]
      rcases lockedStep_cases ssim
          (detBookkeep d timestamp_ms (ema (d.params.ema_alpha * (1/4)) (preprocess frame) b))
          (preprocess frame) timestamp_ms (ssim b (preprocess frame)) with
        ⟨he, hst, hcu, hpe⟩ | ⟨he, hst, hcu, c0, hc0, hpe⟩
      · refine ⟨⟨?_, ?_, ?_⟩, by rw [he]; simp, by rw [he]; simp, fun c hc => Or.inl ?_⟩
        · intro hsearch
          rw [hst] at hsearch
          have hx : d.state = DetState.searching := hsearch
          rw [hs] at hx
          cases hx
        · intro c hc
          rw [hpe] at hc
          exact h2 c hc
        · intro c hc
          rw [hcu] at hc
          exact h3 c hc
        · rw [hpe]
          exact hc
      · refine ⟨⟨fun _ => hcu, ?_, fun c hc => by rw [hcu] at hc; cases hc⟩,
          by rw [he]; simp, by rw [he]; simp, fun c hc => Or.inl ?_⟩
        · intro c hc
          rw [hpe] at hc
          rcases List.mem_append.mp hc with hc | hc
          · exact h2 c hc
          · simp only [List.mem_singleton] at hc
            simp [hc]
        · rw [hpe]
          exact List.mem_append.mpr (Or.inl hc)

/-- A candidate closed by `flush` always carries a terminated `end_ms`. -/
theorem flushClose_closed (c : SlideCandidate) (last_timestamp_ms : Option Int) :
    (flushClose c last_timestamp_ms).end_ms ≠ none := by
  unfold flushClose
  split <;> rename_i hce
  · simp
  · exact hce

/-- Branch analysis of `flush`: it leaves no queued and no current
candidate, keeps the state, clears the locked reference, returns only
terminated candidates (when the queue held only terminated ones), and
returns every queued candidate unchanged. -/
theorem flush_props {Img : Type} (d : SlideKeyframeDetector Img) :
    let r := flush d
    r.1.pending_emit = [] ∧ r.1.current_candidate = none ∧ r.1.state = d.state ∧
    r.1.locked_reference = none ∧
    ((∀ c ∈ d.pending_emit, c.end_ms ≠ none) → ∀ c ∈ r.2, c.end_ms ≠ none) ∧
    (∀ c ∈ d.pending_emit, c ∈ r.2) := by
  unfold flush
  cases hc : d.current_candidate with
  | none =>
    exact ⟨rfl, rfl, rfl, rfl, fun hclosed e he => hclosed e he, fun e he => he⟩
  | some c =>
    refine ⟨rfl, rfl, rfl, rfl, ?_, fun e he => List.mem_append.mpr (Or.inl he)⟩
    intro hclosed e he
    rcases List.mem_append.mp he with he | he
    · exact hclosed e he
    · simp only [List.mem_singleton] at he
      subst he
      exact flushClose_closed c d.last_timestamp_ms

/-- Final detector state after a sequence of `process_frame` calls. -/
def detRunEnd {Raw Img : Type} (preprocess : Raw → Img) (ssim : Img → Img → ℚ)
    (ema : ℚ → Img → Img → Img) (encodeImage : Raw → Bytes)
    (d : SlideKeyframeDetector Img) (inputs : List (DetInput Raw)) :
    SlideKeyframeDetector Img :=
  inputs.foldl
    (fun d i => (process_frame preprocess ssim ema encodeImage d i.frame i.timestamp_ms i.metadata).1)
    d

/-- `DetInv` holds after any sequence of `process_frame` calls from an
invariant state. -/
theorem detRunEnd_inv {Raw Img : Type} (preprocess : Raw → Img) (ssim : Img → Img → ℚ)
    (ema : ℚ → Img → Img → Img) (encodeImage : Raw → Bytes)
    (d : SlideKeyframeDetector Img) (inputs : List (DetInput Raw)) (h : DetInv d) :
    DetInv (detRunEnd preprocess ssim ema encodeImage d inputs) := by
  induction inputs generalizing d with
  | nil => exact h
  | cons i rest ih =>
    have hp := process_frame_props preprocess ssim ema encodeImage d
      i.frame i.timestamp_ms i.metadata h
    exact ih _ hp.1

/-- One interaction with the detector: a `process_frame` call or a `flush`
call. -/
inductive DetOp (Raw : Type) where
  | frame (i : DetInput Raw)
  | flushCall
deriving DecidableEq

/-- Dispatch of one interaction. -/
def detOpStep {Raw Img : Type} (preprocess : Raw → Img) (ssim : Img → Img → ℚ)
    (ema : ℚ → Img → Img → Img) (encodeImage : Raw → Bytes)
    (d : SlideKeyframeDetector Img) :
    DetOp Raw → SlideKeyframeDetector Img × List SlideCandidate
  | DetOp.frame i => process_frame preprocess ssim ema encodeImage d i.frame i.timestamp_ms i.metadata
  | DetOp.flushCall => flush d

/-- Final detector state after a sequence of interactions. -/
def detOpRunEnd {Raw Img : Type} (preprocess : Raw → Img) (ssim : Img → Img → ℚ)
    (ema : ℚ → Img → Img → Img) (encodeImage : Raw → Bytes)
    (d : SlideKeyframeDetector Img) (ops : List (DetOp Raw)) :
    SlideKeyframeDetector Img :=
  ops.foldl (fun d op => (detOpStep preprocess ssim ema encodeImage d op).1) d

/-- One interaction preserves `DetInv`, returns only terminated candidates,
and moves queued candidates along unchanged. -/
theorem detOpStep_props {Raw Img : Type} (preprocess : Raw → Img) (ssim : Img → Img → ℚ)
    (ema : ℚ → Img → Img → Img) (encodeImage : Raw → Bytes)
    (d : SlideKeyframeDetector Img) (op : DetOp Raw) (h : DetInv d) :
    let r := detOpStep preprocess ssim ema encodeImage d op
    DetInv r.1 ∧
    (∀ c ∈ r.2, c.end_ms ≠ none) ∧
    (∀ c ∈ d.pending_emit, c ∈ r.1.pending_emit ∨ c ∈ r.2) := by
  cases op with
  | frame i =>
    have hp := process_frame_props preprocess ssim ema encodeImage d
      i.frame i.timestamp_ms i.metadata h
    exact ⟨hp.1, hp.2.1, hp.2.2.2⟩
  | flushCall =>
    obtain ⟨hpe, hcu, hst, hlr, hcl, hmem⟩ := flush_props d
    obtain ⟨h1, h2, h3⟩ := h
    simp only [detOpStep]
    refine ⟨⟨fun _ => hcu, ?_, fun c hc => by rw [hcu] at hc; cases hc⟩, hcl h2, ?_⟩
    · intro c hc
      rw [hpe] at hc
      cases hc
    · intro c hc
      exact Or.inr (hmem c hc)

/-- `DetInv` holds after any sequence of interactions from an invariant
state. -/
theorem detOpRunEnd_inv {Raw Img : Type} (preprocess : Raw → Img) (ssim : Img → Img → ℚ)
    (ema : ℚ → Img → Img → Img) (encodeImage : Raw → Bytes)
    (d : SlideKeyframeDetector Img) (ops : List (DetOp Raw)) (h : DetInv d) :
    DetInv (detOpRunEnd preprocess ssim ema encodeImage d ops) := by
  induction ops generalizing d with
  | nil => exact h
  | cons op rest ih =>
    have hp := detOpStep_props preprocess ssim ema encodeImage d op h
    exact ih _ hp.1

/-- `searchingStep` cannot lock while the cooldown window since the last
lock is still open: state, current candidate and lock time are unchanged
and nothing is returned. -/
theorem searchingStep_cooldown {Raw Img : Type} (encodeImage : Raw → Bytes)
    (d : SlideKeyframeDetector Img) (frame : Raw) (processed : Img)
    (timestamp_ms : Int) (ssim_baseline : ℚ) (metadata : ChunkMetadata) (L : Int)
    (h2 : d.last_lock_ms = some L) (h3 : timestamp_ms - L < d.params.cooldown_ms) :
    let r := searchingStep encodeImage d frame processed timestamp_ms ssim_baseline metadata
    r.1.state = d.state ∧ r.1.current_candidate = d.current_candidate ∧
    r.1.last_lock_ms = d.last_lock_ms ∧ r.2 = [] := by
  unfold searchingStep
  dsimp only
  split
  · rw [h2]
    dsimp only
    rw [decide_eq_false (not_le.mpr h3), Bool.and_false]
    simp
  · exact ⟨rfl, rfl, rfl, rfl⟩

/-- A locked detector with no current candidate is trapped: one more
frame keeps it locked with no candidate and returns nothing. -/
theorem locked_trap_step {Raw Img : Type} (preprocess : Raw → Img) (ssim : Img → Img → ℚ)
    (ema : ℚ → Img → Img → Img) (encodeImage : Raw → Bytes)
    (d : SlideKeyframeDetector Img) (frame : Raw) (timestamp_ms : Int)
    (metadata : ChunkMetadata) (h1 : d.state = DetState.locked)
    (h2 : d.current_candidate = none) :
    let r := process_frame preprocess ssim ema encodeImage d frame timestamp_ms metadata
    r.1.state = DetState.locked ∧ r.1.current_candidate = none ∧ r.2 = [] := by
  cases hb : d.baseline with
  | none =>
    rw [process_frame_eq_none preprocess ssim ema encodeImage d frame timestamp_ms metadata hb]
    exact ⟨h1, h2, rfl⟩
  | some b =>
    rw [process_frame_eq_locked preprocess ssim ema encodeImage d frame timestamp_ms metadata b hb h1]
    rcases lockedStep_cases ssim
        (detBookkeep d timestamp_ms (ema (d.params.ema_alpha * (1/4)) (preprocess frame) b))
        (preprocess frame) timestamp_ms (ssim b (preprocess frame)) with
      ⟨he, hst, hcu, hpe⟩ | ⟨he, hst, hcu, c0, hc0, hpe⟩
    · refine ⟨?_, ?_, he⟩
      · rw [hst]
        exact h1
      · rw [hcu]
        exact h2
    · have : d.current_candidate = some c0 := hc0
      rw [h2] at this
      cases this

/-- The locked trap persists along any sequence of `process_frame`
calls. -/
theorem locked_trap_run {Raw Img : Type} (preprocess : Raw → Img) (ssim : Img → Img → ℚ)
    (ema : ℚ → Img → Img → Img) (encodeImage : Raw → Bytes)
    (d : SlideKeyframeDetector Img) (inputs : List (DetInput Raw))
    (h1 : d.state = DetState.locked) (h2 : d.current_candidate = none) :
    (detRunEnd preprocess ssim ema encodeImage d inputs).state = DetState.locked ∧
    (detRunEnd preprocess ssim ema encodeImage d inputs).current_candidate = none := by
  induction inputs generalizing d with
  | nil => exact ⟨h1, h2⟩
  | cons i rest ih =>
    have hp := locked_trap_step preprocess ssim ema encodeImage d
      i.frame i.timestamp_ms i.metadata h1 h2
    exact ih _ hp.1 hp.2.1

/-! ## Concrete instantiation of the image oracles

Used by witnesses and counterexamples.  Processed frames are rational
numbers; the SSIM oracle returns the value of the frame currently being
compared (ignoring the reference), so a scripted input stream directly
prescribes the similarity score the detector sees at each step, exactly as
the concrete scenarios in the specification do. -/

def preQ : ℚ → ℚ := id

def ssimQ : ℚ → ℚ → ℚ := fun _ curr => curr

def emaQ : ℚ → ℚ → ℚ → ℚ := fun _ newImg _ => newImg

def encQ : ℚ → Bytes := fun _ => []

def mdQ : ChunkMetadata := {}

def qIn (q : ℚ) (t : Int) : DetInput ℚ :=
  { frame := q, timestamp_ms := t, metadata := mdQ }

/-- Similarity 0.95, above the default stability threshold 0.90. -/
def simHi : ℚ := mkRat 19 20

/-- Similarity 0.5, below the default change thresholds 0.70 and 0.75. -/
def simLo : ℚ := mkRat 1 2

/-- The six frames of the C3 scenario: similarity 0.95 at
t = 0, 200, ..., 1000 ms. -/
def c3Inputs : List (DetInput ℚ) :=
  [qIn simHi 0, qIn simHi 200, qIn simHi 400, qIn simHi 600, qIn simHi 800, qIn simHi 1000]

/-- The C3 scenario extended by a seventh stable frame at t = 1200 ms;
this streak does produce a lock. -/
def lockInputs : List (DetInput ℚ) := c3Inputs ++ [qIn simHi 1200]

/-- Eight change-flagged frames (similarity 0.5) at t = 1700..2400 ms,
confirming a slide transition after the lock of `lockInputs`. -/
def flagInputs : List (DetInput ℚ) :=
  [qIn simLo 1700, qIn simLo 1800, qIn simLo 1900, qIn simLo 2000,
   qIn simLo 2100, qIn simLo 2200, qIn simLo 2300, qIn simLo 2400]

/-- A second stability streak at t = 2600..3400 ms; the next frame at
t = 3600 produces the second lock, releasing the first candidate. -/
def stabInputs : List (DetInput ℚ) :=
  [qIn simHi 2600, qIn simHi 2800, qIn simHi 3000, qIn simHi 3200, qIn simHi 3400]

/-- A placeholder candidate used only to select elements of concrete
lists. -/
def dummyCand : SlideCandidate :=
  { lecture_id := "", start_ms := 0, lock_ssim := 0, image_bytes := [], metadata := {} }

/-! ## Detector claims -/

/-- C2: after any sequence of `process_frame` calls on a fresh detector,
the next call returns only candidates that already carry a terminated
`end_ms`, and returns a non-empty list only on a step that performs a new
lock (the state moves from `searching` to `locked` on that very step):
confirmed candidates are released one step delayed, at the next successful
lock. -/
theorem c2_released_candidates_closed {Raw Img : Type} (preprocess : Raw → Img)
    (ssim : Img → Img → ℚ) (ema : ℚ → Img → Img → Img) (encodeImage : Raw → Bytes)
    (lecture : String) (params : SlideDetectionParams) (inputs : List (DetInput Raw))
    (frame : Raw) (timestamp_ms : Int) (metadata : ChunkMetadata) :
    let d := detRunEnd preprocess ssim ema encodeImage (detInit Img lecture params) inputs
    let r := process_frame preprocess ssim ema encodeImage d frame timestamp_ms metadata
    (∀ c ∈ r.2, c.end_ms ≠ none) ∧
    (r.2 ≠ [] → d.state = DetState.searching ∧ r.1.state = DetState.locked) := by
  have hinv := detRunEnd_inv preprocess ssim ema encodeImage _ inputs
    (detInit_inv lecture params)
  have hp := process_frame_props preprocess ssim ema encodeImage _ frame timestamp_ms
    metadata hinv
  exact ⟨hp.2.1, hp.2.2.1⟩

/-- Detector state after a full lock-confirm-restabilise run. -/
def c2Det : SlideKeyframeDetector ℚ :=
  detRunEnd preQ ssimQ emaQ encQ (detInit ℚ "lecture" {})
    (lockInputs ++ flagInputs ++ stabInputs)

/-- Result of the step at t = 3600 ms that performs the second lock and
releases the first confirmed candidate. -/
def c2Res : SlideKeyframeDetector ℚ × List SlideCandidate :=
  process_frame preQ ssimQ emaQ encQ c2Det simHi 3600 mdQ

theorem c2_witness :
    c2Res.2 ≠ [] ∧ (∀ c ∈ c2Res.2, c.end_ms ≠ none) ∧
    c2Det.state = DetState.searching ∧ c2Res.1.state = DetState.locked := by
  have h := c2_released_candidates_closed preQ ssimQ emaQ encQ "lecture" {}
    (lockInputs ++ flagInputs ++ stabInputs) simHi 3600 mdQ
  have hne : c2Res.2 ≠ [] := by decide
  exact ⟨hne, h.1, (h.2 hne).1, (h.2 hne).2⟩

/-- C3 counterexample: on the claimed scenario (default parameters,
`tau_stable = 0.90`, `min_stable_duration_ms = 1000`, similarity 0.95 at
t = 0, 200, ..., 1000 ms) the detector has NOT locked after processing the
t = 1000 ms frame: it is still searching with no candidate, because the
first frame only seeds the baseline and the stability window starts at
t = 200. -/
theorem c3_no_lock_at_1000 :
    (detRunEnd preQ ssimQ emaQ encQ (detInit ℚ "lecture" {}) c3Inputs).state =
      DetState.searching ∧
    (detRunEnd preQ ssimQ emaQ encQ (detInit ℚ "lecture" {}) c3Inputs).current_candidate =
      none ∧
    (detRunEnd preQ ssimQ emaQ encQ (detInit ℚ "lecture" {}) c3Inputs).stable_since_ms =
      some 200 := by decide

/-- C3 amended: the streak must extend one step further.  After the six
frames of the scenario the detector is still searching; a seventh frame of
similarity 0.95 at t = 1200 ms produces the lock during its processing,
and the created candidate's `start_ms` equals 200 (the recorded stability
start), not 0. -/
theorem c3_lock_at_1200 :
    (detRunEnd preQ ssimQ emaQ encQ (detInit ℚ "lecture" {}) c3Inputs).state =
      DetState.searching ∧
    (detRunEnd preQ ssimQ emaQ encQ (detInit ℚ "lecture" {}) lockInputs).state =
      DetState.locked ∧
    ((detRunEnd preQ ssimQ emaQ encQ (detInit ℚ "lecture" {}) lockInputs).current_candidate.map
      SlideCandidate.start_ms) = some 200 ∧
    ((detRunEnd preQ ssimQ emaQ encQ (detInit ℚ "lecture" {}) lockInputs).last_lock_ms) =
      some 200 := by decide

/-- C4: while the detector is searching and less than `cooldown_ms` has
elapsed since the recorded last lock, a `process_frame` call cannot lock:
the state stays `searching`, no candidate is created, the lock time is
unchanged and nothing is returned — so a qualifying stability streak
evaluated inside the cooldown window never produces a second lock. -/
theorem c4_cooldown_blocks_lock {Raw Img : Type} (preprocess : Raw → Img)
    (ssim : Img → Img → ℚ) (ema : ℚ → Img → Img → Img) (encodeImage : Raw → Bytes)
    (d : SlideKeyframeDetector Img) (frame : Raw) (timestamp_ms : Int)
    (metadata : ChunkMetadata) (L : Int)
    (h1 : d.state = DetState.searching) (h2 : d.last_lock_ms = some L)
    (h3 : timestamp_ms - L < d.params.cooldown_ms) :
    let r := process_frame preprocess ssim ema encodeImage d frame timestamp_ms metadata
    r.1.state = DetState.searching ∧
    r.1.current_candidate = d.current_candidate ∧
    r.1.last_lock_ms = some L ∧ r.2 = [] := by
  cases hb : d.baseline with
  | none =>
    rw [process_frame_eq_none preprocess ssim ema encodeImage d frame timestamp_ms metadata hb]
    exact ⟨h1, rfl, h2, rfl⟩
  | some b =>
    rw [process_frame_eq_searching preprocess ssim ema encodeImage d frame timestamp_ms
      metadata b hb h1]
    obtain ⟨hst, hcu, hll, he⟩ := searchingStep_cooldown encodeImage
      (detBookkeep d timestamp_ms (ema d.params.ema_alpha (preprocess frame) b))
      frame (preprocess frame) timestamp_ms (ssim b (preprocess frame)) metadata L h2 h3
    refine ⟨?_, ?_, ?_, he⟩
    · rw [hst]
      exact h1
    · rw [hcu]
      rfl
    · rw [hll]
      exact h2

/-- Detector state after lock (at stability start t = 200) and a confirmed
transition at t = 2400: searching again with `last_lock_ms = 200`. -/
def c4Det : SlideKeyframeDetector ℚ :=
  detRunEnd preQ ssimQ emaQ encQ (detInit ℚ "lecture" {}) (lockInputs ++ flagInputs)

theorem c4_witness :
    c4Det.state = DetState.searching ∧ c4Det.last_lock_ms = some 200 ∧
    (1600 : Int) - 200 < c4Det.params.cooldown_ms ∧
    (process_frame preQ ssimQ emaQ encQ c4Det simHi 1600 mdQ).1.state =
      DetState.searching ∧
    (process_frame preQ ssimQ emaQ encQ c4Det simHi 1600 mdQ).2 = [] := by
  have h := c4_cooldown_blocks_lock preQ ssimQ emaQ encQ c4Det simHi 1600 mdQ 200
    (by decide) (by decide) (by decide)
  exact ⟨by decide, by decide, by decide, h.1, h.2.2.2⟩

/-- C5: on any interleaving of `process_frame` and `flush` calls on a
fresh detector, every queued candidate is already terminated and the
current candidate is the only possibly-open one (and it is open): so at
most one open candidate exists at any time.  Moreover the next call
returns only terminated candidates and moves queued candidates along
unchanged (each queued candidate either stays queued or is returned
exactly as stored, so a terminated `end_ms` is never revised). -/
theorem c5_single_open_candidate {Raw Img : Type} (preprocess : Raw → Img)
    (ssim : Img → Img → ℚ) (ema : ℚ → Img → Img → Img) (encodeImage : Raw → Bytes)
    (lecture : String) (params : SlideDetectionParams) (ops : List (DetOp Raw))
    (op : DetOp Raw) :
    let d := detOpRunEnd preprocess ssim ema encodeImage (detInit Img lecture params) ops
    let r := detOpStep preprocess ssim ema encodeImage d op
    (∀ c ∈ d.pending_emit, c.end_ms ≠ none) ∧
    (∀ c, d.current_candidate = some c → c.end_ms = none) ∧
    (d.state = DetState.searching → d.current_candidate = none) ∧
    (∀ c ∈ r.2, c.end_ms ≠ none) ∧
    (∀ c ∈ d.pending_emit, c ∈ r.1.pending_emit ∨ c ∈ r.2) := by
  have hinv := detOpRunEnd_inv preprocess ssim ema encodeImage _ ops
    (detInit_inv lecture params)
  have hp := detOpStep_props preprocess ssim ema encodeImage _ op hinv
  exact ⟨hinv.2.1, hinv.2.2, hinv.1, hp.2.1, hp.2.2⟩

/-- Interaction list reaching a state with one queued (terminated)
candidate. -/
def c5Ops : List (DetOp ℚ) := (lockInputs ++ flagInputs).map DetOp.frame

/-- Interaction list reaching a state with one open current candidate. -/
def c5OpsB : List (DetOp ℚ) := lockInputs.map DetOp.frame

def c5Det : SlideKeyframeDetector ℚ :=
  detOpRunEnd preQ ssimQ emaQ encQ (detInit ℚ "lecture" {}) c5Ops

def c5DetB : SlideKeyframeDetector ℚ :=
  detOpRunEnd preQ ssimQ emaQ encQ (detInit ℚ "lecture" {}) c5OpsB

theorem c5_witness :
    c5Det.pending_emit.length = 1 ∧
    (c5Det.pending_emit.getD 0 dummyCand).end_ms ≠ none ∧
    (c5DetB.current_candidate.getD dummyCand).end_ms = none ∧
    (∀ c ∈ c5Det.pending_emit,
      c ∈ (detOpStep preQ ssimQ emaQ encQ c5Det DetOp.flushCall).1.pending_emit ∨
      c ∈ (detOpStep preQ ssimQ emaQ encQ c5Det DetOp.flushCall).2) := by
  have hA := c5_single_open_candidate preQ ssimQ emaQ encQ "lecture" {} c5Ops DetOp.flushCall
  have hB := c5_single_open_candidate preQ ssimQ emaQ encQ "lecture" {} c5OpsB DetOp.flushCall
  refine ⟨by decide, ?_, ?_, hA.2.2.2.2⟩
  · exact hA.1 _ (by decide)
  · exact hB.2.1 _ (by decide)

/-- `flush` returns nothing if neither a queued nor a current candidate
exists. -/
theorem flush_out_empty {Img : Type} (d : SlideKeyframeDetector Img)
    (hcu : d.current_candidate = none) (hpe : d.pending_emit = []) :
    (flush d).2 = [] := by
  unfold flush
  rw [hcu]
  exact hpe

/-- C7: `flush` on a detector with no open and no queued candidates
returns the empty list; and for every detector state, a second `flush`
immediately after a first one returns the empty list and leaves neither an
open nor a queued candidate — `flush` is idempotent once nothing
remains. -/
theorem c7_flush_idempotent {Img : Type} (d : SlideKeyframeDetector Img) :
    (d.current_candidate = none → d.pending_emit = [] → (flush d).2 = []) ∧
    (flush (flush d).1).2 = [] ∧
    (flush (flush d).1).1.current_candidate = none ∧
    (flush (flush d).1).1.pending_emit = [] := by
  obtain ⟨hpe1, hcu1, -, -, -, -⟩ := flush_props d
  obtain ⟨hpe2, hcu2, -, -, -, -⟩ := flush_props (flush d).1
  exact ⟨fun hcu hpe => flush_out_empty d hcu hpe,
    flush_out_empty (flush d).1 hcu1 hpe1, hcu2, hpe2⟩

theorem c7_witness :
    (flush (detInit ℚ "lecture" {})).2 = [] ∧
    (flush (flush (detInit ℚ "lecture" {})).1).2 = [] ∧
    (flush (flush (detInit ℚ "lecture" {})).1).1.current_candidate = none ∧
    (flush (flush (detInit ℚ "lecture" {})).1).1.pending_emit = [] := by
  have h := c7_flush_idempotent (detInit ℚ "lecture" {})
  exact ⟨h.1 rfl rfl, h.2.1, h.2.2.1, h.2.2.2⟩

/-- C10: calling `flush` on a detector in the `locked` state leaves it
locked with no current candidate and no locked reference, and from then on
no sequence of `process_frame` calls can create a candidate or return a
non-empty list: the detector stays locked forever, because only the
searching branch creates candidates and the transition back to searching
requires a non-null current candidate. -/
theorem c10_flush_while_locked_traps {Raw Img : Type} (preprocess : Raw → Img)
    (ssim : Img → Img → ℚ) (ema : ℚ → Img → Img → Img) (encodeImage : Raw → Bytes)
    (d : SlideKeyframeDetector Img) (hlock : d.state = DetState.locked) :
    (flush d).1.state = DetState.locked ∧
    (flush d).1.current_candidate = none ∧
    (flush d).1.locked_reference = none ∧
    (∀ (inputs : List (DetInput Raw)) (frame : Raw) (timestamp_ms : Int)
        (metadata : ChunkMetadata),
      let d2 := detRunEnd preprocess ssim ema encodeImage (flush d).1 inputs
      let r := process_frame preprocess ssim ema encodeImage d2 frame timestamp_ms metadata
      d2.state = DetState.locked ∧ d2.current_candidate = none ∧
      r.1.state = DetState.locked ∧ r.1.current_candidate = none ∧ r.2 = []) := by
  obtain ⟨hpe, hcu, hst, hlr, -, -⟩ := flush_props d
  have h1 : (flush d).1.state = DetState.locked := by rw [hst]; exact hlock
  refine ⟨h1, hcu, hlr, ?_⟩
  intro inputs frame timestamp_ms metadata
  obtain ⟨hs2, hc2⟩ := locked_trap_run preprocess ssim ema encodeImage _ inputs h1 hcu
  have hstep := locked_trap_step preprocess ssim ema encodeImage _ frame timestamp_ms
    metadata hs2 hc2
  exact ⟨hs2, hc2, hstep.1, hstep.2.1, hstep.2.2⟩

/-- Detector locked at t = 1200 (candidate open), used to exercise C10. -/
def c10Det : SlideKeyframeDetector ℚ :=
  detRunEnd preQ ssimQ emaQ encQ (detInit ℚ "lecture" {}) lockInputs

theorem c10_witness :
    c10Det.state = DetState.locked ∧
    (flush c10Det).1.state = DetState.locked ∧
    (flush c10Det).1.current_candidate = none ∧
    (process_frame preQ ssimQ emaQ encQ
      (detRunEnd preQ ssimQ emaQ encQ (flush c10Det).1 [qIn simHi 2000])
      simHi 2200 mdQ).2 = [] := by
  have hl : c10Det.state = DetState.locked := by decide
  have h := c10_flush_while_locked_traps preQ ssimQ emaQ encQ c10Det hl
  exact ⟨hl, h.1, h.2.1, (h.2.2.2 [qIn simHi 2000] simHi 2200 mdQ).2.2.2.2⟩

/-! ## VideoAccumulator claims -/

/-- Without a stored init segment, a non-init chunk produces no output and
still stores no init segment. -/
theorem add_chunk_no_init (a : VideoAccumulator) (c : Bytes)
    (ha : a.init_segment = none) (hc : chunkIsInit c = false) :
    (add_chunk a c).2 = none ∧ (add_chunk a c).1.init_segment = none := by
  unfold add_chunk
  rw [hc]
  simp only [Bool.false_eq_true, reduceIte, initSegmentTruthy, ha]
  simp

/-- While no init segment has ever been received, every `add_chunk` call
returns `None`. -/
theorem accRun_no_init (a : VideoAccumulator) (chunks : List Bytes)
    (ha : a.init_segment = none) (hall : ∀ c ∈ chunks, chunkIsInit c = false) :
    ∀ o ∈ accRun a chunks, o = none := by
  induction chunks generalizing a with
  | nil => intro o ho; cases ho
  | cons c rest ih =>
    intro o ho
    obtain ⟨h1, h2⟩ := add_chunk_no_init a c ha (hall c (List.mem_cons_self c rest))
    simp only [accRun] at ho
    rcases List.mem_cons.mp ho with ho | ho
    · rw [ho, h1]
    · exact ih _ h2 (fun e he => hall e (List.mem_cons_of_mem c he)) o ho

/-- An init-marker chunk resets the buffer: it is stored as the init
segment, all buffered media fragments are discarded, and the chunk is
returned alone. -/
theorem add_chunk_init (a : VideoAccumulator) (c : Bytes)
    (hc : chunkIsInit c = true) :
    (add_chunk a c).2 = some c ∧ (add_chunk a c).1.init_segment = some c ∧
    (add_chunk a c).1.media_chunks = [] := by
  unfold add_chunk
  rw [hc]
  exact ⟨rfl, rfl, rfl⟩

/-- A media chunk, arriving while an init segment is held and the buffer
respects its bound, is appended; the retained window is the last
`max_chunks` fragments, and the returned bytes are the init segment
followed by the retained fragments in arrival order. -/
theorem add_chunk_media (a : VideoAccumulator) (c : Bytes) (init : Bytes)
    (hc : chunkIsInit c = false) (hhi : a.has_init = true)
    (hinit : a.init_segment = some init) (hne : init ≠ [])
    (hlen : a.media_chunks.length ≤ a.max_chunks) :
    (add_chunk a c).1.media_chunks =
      (a.media_chunks ++ [c]).drop ((a.media_chunks ++ [c]).length - a.max_chunks) ∧
    (add_chunk a c).2 =
      some (init ++
        ((a.media_chunks ++ [c]).drop
          ((a.media_chunks ++ [c]).length - a.max_chunks)).flatten) := by
  unfold add_chunk
  rw [hc]
  simp only [Bool.false_eq_true, reduceIte, initSegmentTruthy, hinit, hhi]
  rw [if_pos (by simp [hne])]
  by_cases hgt : a.max_chunks < (a.media_chunks ++ [c]).length
  · have hdrop : (a.media_chunks ++ [c]).length - a.max_chunks = 1 := by
      simp only [List.length_append, List.length_singleton] at hgt ⊢
      omega
    rw [if_pos hgt, hdrop]
    exact ⟨rfl, rfl⟩
  · have hdrop : (a.media_chunks ++ [c]).length - a.max_chunks = 0 := by
      omega
    rw [if_neg hgt, hdrop, List.drop_zero]
    exact ⟨rfl, rfl⟩

/-- The buffer bound `media_chunks.length ≤ max_chunks` holds initially
and is preserved by every `add_chunk` call (so the hypothesis of
`add_chunk_media` holds in every reachable accumulator state). -/
theorem add_chunk_preserves_bound (a : VideoAccumulator) (c : Bytes)
    (hlen : a.media_chunks.length ≤ a.max_chunks) :
    (add_chunk a c).1.media_chunks.length ≤ (add_chunk a c).1.max_chunks := by
  unfold add_chunk
  dsimp only
  split
  · exact Nat.zero_le _
  · split
    · split <;> rename_i hinit
      · dsimp only
        split <;> rename_i hgt
        · simp only [List.length_drop, List.length_append, List.length_singleton] at hgt ⊢
          omega
        · simp only [List.length_append, List.length_singleton] at hgt ⊢
          omega
      · exact hlen
    · exact hlen

/-- C6: `add_chunk` returns `None` for every chunk while no init segment
has ever been received; an init-marker chunk discards all buffered media
fragments, is kept as the init segment and returned alone; any other chunk
(with an init held and the buffer within its bound) is appended to the
bounded window that retains only the newest `max_chunks` fragments, and
the return value is the init segment plus the retained fragments
concatenated in arrival order; in particular with bound 2, after an init
segment and four media fragments the returned bytes are the init segment
followed by only the last two fragments. -/
theorem c6_accumulator_contract :
    (∀ (a : VideoAccumulator) (chunks : List Bytes), a.init_segment = none →
      (∀ c ∈ chunks, chunkIsInit c = false) → ∀ o ∈ accRun a chunks, o = none) ∧
    (∀ (a : VideoAccumulator) (c : Bytes), chunkIsInit c = true →
      (add_chunk a c).2 = some c ∧ (add_chunk a c).1.init_segment = some c ∧
      (add_chunk a c).1.media_chunks = []) ∧
    (∀ (a : VideoAccumulator) (c : Bytes) (init : Bytes), chunkIsInit c = false →
      a.has_init = true → a.init_segment = some init → init ≠ [] →
      a.media_chunks.length ≤ a.max_chunks →
      (add_chunk a c).2 =
        some (init ++
          ((a.media_chunks ++ [c]).drop
            ((a.media_chunks ++ [c]).length - a.max_chunks)).flatten)) ∧
    (accRun { max_chunks := 2 } [ebmlMarker, [1], [2], [3], [4]]).getLast? =
      some (some (ebmlMarker ++ [3] ++ [4])) := by
  refine ⟨accRun_no_init, add_chunk_init, ?_, by decide⟩
  intro a c init hc hhi hinit hne hlen
  exact (add_chunk_media a c init hc hhi hinit hne hlen).2

theorem c6_witness :
    (∀ o ∈ accRun {} [[9, 9], [7]], o = none) ∧
    (add_chunk {} ebmlMarker).2 = some ebmlMarker ∧
    (add_chunk
        { max_chunks := 2, has_init := true, init_segment := some ebmlMarker,
          media_chunks := [[1], [2]] } [3]).2 =
      some (ebmlMarker ++ [2] ++ [3]) := by
  have h := c6_accumulator_contract
  refine ⟨h.1 {} [[9, 9], [7]] rfl (by decide), (h.2.1 {} ebmlMarker (by decide)).1, ?_⟩
  have h3 := h.2.2.1
    { max_chunks := 2, has_init := true, init_segment := some ebmlMarker,
      media_chunks := [[1], [2]] } [3] ebmlMarker (by decide) rfl rfl (by decide) (by decide)
  rw [h3]
  decide

/-! ## KeyframeBroadcaster (`video_keyframes.py` lines 279-302)

Subscriber connections are an abstract type with decidable equality; the
subscriber set guarded by the asyncio lock is modelled as a duplicate-free
list (Python `set` iteration order is unspecified; the model fixes
insertion order — the claims proved below do not depend on the order).
`broadcast` snapshots the set and sends to each subscriber; the outcome of
each `connection.send_json` is supplied by the oracle `sendOk` (`false`
means the send raises).  A failed send unregisters that subscriber and the
loop continues; the call always returns normally, which the model renders
as a total function returning the new state, the list of attempted
deliveries and the list of successful deliveries. -/

structure KeyframeBroadcaster (Conn : Type) where
  connections : List Conn := []
deriving DecidableEq

/-- `KeyframeBroadcaster.register`: `set.add` (no duplicates). -/
def register {Conn : Type} [DecidableEq Conn] (b : KeyframeBroadcaster Conn)
    (websocket : Conn) : KeyframeBroadcaster Conn :=
  if websocket ∈ b.connections then b
  else { b with connections := b.connections ++ [websocket] }

/-- `KeyframeBroadcaster.unregister`: `set.discard`. -/
def unregister {Conn : Type} [DecidableEq Conn] (b : KeyframeBroadcaster Conn)
    (websocket : Conn) : KeyframeBroadcaster Conn :=
  { b with connections := b.connections.filter (fun x => x ≠ websocket) }

/-- The delivery loop of `broadcast` over the snapshot: returns the final
state, the attempted deliveries and the successful deliveries. -/
def broadcastLoop {Conn : Type} [DecidableEq Conn] (sendOk : Conn → Bool)
    (b : KeyframeBroadcaster Conn) :
    List Conn → KeyframeBroadcaster Conn × List Conn × List Conn
  | [] => (b, [], [])
  | c :: rest =>
    if sendOk c then
      let r := broadcastLoop sendOk b rest
      (r.1, c :: r.2.1, c :: r.2.2)
    else
      let r := broadcastLoop sendOk (unregister b c) rest
      (r.1, c :: r.2.1, r.2.2)

/-- `KeyframeBroadcaster.broadcast`: snapshot under the lock, then send to
every snapshot member. -/
def broadcast {Conn : Type} [DecidableEq Conn] (sendOk : Conn → Bool)
    (b : KeyframeBroadcaster Conn) :
    KeyframeBroadcaster Conn × List Conn × List Conn :=
  broadcastLoop sendOk b b.connections

/-- The always-failing subscriber is number 1. -/
def c9SendOk : Nat → Bool := fun n => decide (n ≠ 1)

/-- Three registered subscribers 0, 1, 2. -/
def c9B0 : KeyframeBroadcaster Nat := register (register (register {} 0) 1) 2

/-- Result of the first broadcast. -/
def c9R1 : KeyframeBroadcaster Nat × List Nat × List Nat := broadcast c9SendOk c9B0

/-- C9: with three registered subscribers of which exactly one (number 1)
always fails on send, one `broadcast` call attempts all three, delivers
exactly once to each of the two healthy subscribers, unregisters the
failing one, and returns normally (the model's `broadcast` is a total
function); a second `broadcast` call attempts delivery only to the two
remaining subscribers — the removed one is no longer attempted. -/
theorem c9_broadcast_failure_isolation :
    c9R1.2.1 = [0, 1, 2] ∧
    c9R1.2.2 = [0, 2] ∧
    c9R1.1.connections = [0, 2] ∧
    (broadcast c9SendOk c9R1.1).2.1 = [0, 2] ∧
    (broadcast c9SendOk c9R1.1).2.2 = [0, 2] := by decide

/-! ## Frame decoding (`_decode_frames`, lines 325-409)

The function shells out to ffmpeg and OpenCV and manages two temporary
files; the embedding supplies the outcomes of those external calls through
a `DecodeEnv` oracle and tracks the temporary files explicitly.
`TranscodeOutcome.errExpected` is an `ffmpeg.Error` whose stderr contains
`EBML header parsing failed` or `Invalid data found` (the expected
incomplete-stream errors); `errOther` is any other `ffmpeg.Error` (which
triggers the direct OpenCV fallback read of the input file).  A
`cv2.VideoCapture` read never raises; its frames and its raw
`CAP_PROP_FPS` value (plus whether that value is NaN) are oracle inputs.
That the model is a total function over every oracle outcome renders the
"never raises on malformed input" contract; the two `inputFileRemains` /
`outputFileRemains` flags render the `finally` cleanup (the empty-input
early return happens before the files are created, so nothing remains on
that path either). -/

inductive TranscodeOutcome where
  | ok
  | errExpected
  | errOther
deriving DecidableEq, Repr

/-- One `cv2.VideoCapture` read: the decoded frames and the reported
frame rate (`fpsIsNan` models a NaN reading). -/
structure CaptureRead (Raw : Type) where
  frames : List Raw
  fps : ℚ
  fpsIsNan : Bool := false
deriving DecidableEq

/-- Outcomes of the external toolchain for one `_decode_frames` call. -/
structure DecodeEnv (Raw : Type) where
  transcode : TranscodeOutcome
  inputCapture : CaptureRead Raw
  outputCapture : CaptureRead Raw
deriving DecidableEq

/-- `if not fps or np.isnan(fps): fps = 30.0`. -/
def effectiveFps {Raw : Type} (cap : CaptureRead Raw) : ℚ :=
  if cap.fps = 0 ∨ cap.fpsIsNan = true then 30 else cap.fps

/-- Observable result of `_decode_frames`: the returned pair plus whether
either temporary file is left behind. -/
structure DecodeOutcome (Raw : Type) where
  frames : List Raw
  fps : ℚ
  inputFileRemains : Bool
  outputFileRemains : Bool
deriving DecidableEq

/-- `_decode_frames`. -/
def decode_frames {Raw : Type} (env : DecodeEnv Raw) (chunk_bytes : Bytes) :
    DecodeOutcome Raw :=
  if chunk_bytes = [] then
    { frames := [], fps := 0, inputFileRemains := false, outputFileRemains := false }
  else
    match env.transcode with
    | TranscodeOutcome.errExpected =>
      { frames := [], fps := 0, inputFileRemains := false, outputFileRemains := false }
    | TranscodeOutcome.errOther =>
      let fps := effectiveFps env.inputCapture
      let frames := env.inputCapture.frames
      { frames := frames, fps := if frames.isEmpty then 0 else fps,
        inputFileRemains := false, outputFileRemains := false }
    | TranscodeOutcome.ok =>
      let fps := effectiveFps env.outputCapture
      let frames := env.outputCapture.frames
      { frames := frames, fps := if frames.isEmpty then 0 else fps,
        inputFileRemains := false, outputFileRemains := false }

/-- C8: for every input byte string and every outcome of the external
toolchain, `_decode_frames` returns (it is a total function over the
modelled failure surface, i.e. never raises), with `fps = 0` whenever the
returned frame list is empty, with the pair `([], 0)` whenever the
transcode fails with an expected incomplete-input error, and with neither
temporary file left behind. -/
theorem c8_decode_frames_contract {Raw : Type} (env : DecodeEnv Raw)
    (chunk_bytes : Bytes) :
    let r := decode_frames env chunk_bytes
    (r.frames = [] → r.fps = 0) ∧
    r.inputFileRemains = false ∧
    r.outputFileRemains = false ∧
    (env.transcode = TranscodeOutcome.errExpected → r.frames = [] ∧ r.fps = 0) := by
  unfold decode_frames
  split
  · exact ⟨fun _ => rfl, rfl, rfl, fun _ => ⟨rfl, rfl⟩⟩
  · cases he : env.transcode with
    | errExpected => exact ⟨fun _ => rfl, rfl, rfl, fun _ => ⟨rfl, rfl⟩⟩
    | errOther =>
      dsimp only
      refine ⟨?_, rfl, rfl, fun hx => nomatch hx⟩
      intro hf
      rw [show env.inputCapture.frames = [] from hf]
      rfl
    | ok =>
      dsimp only
      refine ⟨?_, rfl, rfl, fun hx => nomatch hx⟩
      intro hf
      rw [show env.outputCapture.frames = [] from hf]
      rfl

/-- A concrete environment: expected transcode failure on a malformed
one-byte input. -/
def c8Env : DecodeEnv Unit :=
  { transcode := TranscodeOutcome.errExpected
    inputCapture := { frames := [], fps := 0 }
    outputCapture := { frames := [], fps := 0 } }

theorem c8_witness :
    (decode_frames c8Env [7]).frames = [] ∧
    (decode_frames c8Env [7]).fps = 0 ∧
    (decode_frames c8Env [7]).inputFileRemains = false ∧
    (decode_frames c8Env [7]).outputFileRemains = false := by
  have h := c8_decode_frames_contract c8Env [7]
  have he := h.2.2.2 rfl
  exact ⟨he.1, he.2, h.2.1, h.2.2.1⟩

/-! ## VideoChunkProcessor (`video_keyframes.py` lines 412-503)

The orchestrator's external collaborators are abstracted:

* `decode : Bytes → List Raw × ℚ` — `_decode_frames` on the accumulated
  bytes (the decoded frames and the frame rate);
* `rotate : Nat → Raw → Raw` — `cv2.rotate` by 90/180/270 degrees;
* `base_ms : Int` — the result of
  `_parse_iso_to_epoch_ms(metadata.get("capturedAt"))`, supplied as an
  input because that helper reads the wall clock when the capture
  timestamp is absent or unparsable;
* persistence and delivery (`_persist_and_emit`) happen after the state
  updates and do not touch the processor state; the completed candidates
  they would receive are returned instead. -/

/-- Python `int()` on a nonnegative rational: truncation toward zero. -/
def pyTrunc (q : ℚ) : Int := q.num.tdiv (Int.ofNat q.den)

/-- `_apply_orientation` (lines 315-322). -/
def apply_orientation {Raw : Type} (rotate : Nat → Raw → Raw) (frame : Raw)
    (orientation : Option Int) : Raw :=
  if orientation = some 90 ∨ orientation = some (-270) then rotate 90 frame
  else if orientation = some 180 ∨ orientation = some (-180) then rotate 180 frame
  else if orientation = some 270 ∨ orientation = some (-90) then rotate 270 frame
  else frame

/-- State of `VideoChunkProcessor`.  The storage, broadcaster and
session-id collaborators carried by the Python object are not part of the
per-chunk state machine and are omitted. -/
structure VideoChunkProcessor (Img : Type) where
  lecture_id : String
  detector : SlideKeyframeDetector Img
  accumulator : VideoAccumulator
  processed_chunks : Nat := 0
  total_frames_extracted : Nat := 0
  last_frame_count : Nat := 0
deriving DecidableEq

/-- `VideoChunkProcessor.__init__`: fresh detector, accumulator with
`max_chunks = 3`, all counters zero. -/
def procInit (Img : Type) (lecture_id : String) (params : SlideDetectionParams) :
    VideoChunkProcessor Img :=
  { lecture_id := lecture_id
    detector := detInit Img lecture_id params
    accumulator := { max_chunks := 3 } }

/-- The per-frame loop of `process_chunk` (lines 484-500): orient each new
frame, compute its absolute timestamp
`base_ms + int(absolute_frame_idx * frame_interval)`, feed it to the
detector; returns the final detector, the number of frames processed
(each bumps `total_frames_extracted`) and the completed candidates in
emission order. -/
def processNewFrames {Raw Img : Type} (preprocess : Raw → Img) (ssim : Img → Img → ℚ)
    (ema : ℚ → Img → Img → Img) (encodeImage : Raw → Bytes) (rotate : Nat → Raw → Raw)
    (metadata : ChunkMetadata) (base_ms : Int) (frame_interval : ℚ)
    (orientation : Option Int) :
    List Raw → Nat → SlideKeyframeDetector Img →
      SlideKeyframeDetector Img × Nat × List SlideCandidate
  | [], _, det => (det, 0, [])
  | raw_frame :: rest, absolute_frame_idx, det =>
    let oriented_frame := apply_orientation rotate raw_frame orientation
    let timestamp_ms := base_ms + pyTrunc ((absolute_frame_idx : ℚ) * frame_interval)
    let r := process_frame preprocess ssim ema encodeImage det oriented_frame
      timestamp_ms metadata
    let rr := processNewFrames preprocess ssim ema encodeImage rotate metadata base_ms
      frame_interval orientation rest (absolute_frame_idx + 1) r.1
    (rr.1, rr.2.1 + 1, r.2 ++ rr.2.2)

/-- `VideoChunkProcessor.process_chunk` (lines 433-503).  Returns the
updated processor and the completed candidates handed to
`_persist_and_emit`.  `if not accumulated_bytes:` uses Python truthiness
and also skips an empty byte string. -/
def process_chunk {Raw Img : Type} (preprocess : Raw → Img) (ssim : Img → Img → ℚ)
    (ema : ℚ → Img → Img → Img) (encodeImage : Raw → Bytes) (rotate : Nat → Raw → Raw)
    (decode : Bytes → List Raw × ℚ) (p : VideoChunkProcessor Img)
    (chunk_bytes : Bytes) (metadata : ChunkMetadata) (base_ms : Int) :
    VideoChunkProcessor Img × List SlideCandidate :=
  let ar := add_chunk p.accumulator chunk_bytes
  let p := { p with accumulator := ar.1 }
  match ar.2 with
  | none => (p, [])
  | some accumulated_bytes =>
    if accumulated_bytes = [] then (p, [])
    else
      let p := { p with processed_chunks := p.processed_chunks + 1 }
      let dr := decode accumulated_bytes
      let frames := dr.1
      let fps := dr.2
      if frames.isEmpty then (p, [])
      else
        let total_frames := frames.length
        let new_frames_start_idx := p.last_frame_count
        let new_frames := frames.drop new_frames_start_idx
        if new_frames.isEmpty then
          ({ p with last_frame_count := total_frames }, [])
        else
          let orientation := metadata.orientation
          let frame_interval : ℚ := if 0 < fps then 1000 / fps else 0
          let r := processNewFrames preprocess ssim ema encodeImage rotate metadata
            base_ms frame_interval orientation new_frames new_frames_start_idx p.detector
          ({ p with
              detector := r.1
              total_frames_extracted := p.total_frames_extracted + r.2.1
              last_frame_count := total_frames }, r.2.2)

/-- `VideoChunkProcessor.finalize` (lines 505-509). -/
def finalize {Img : Type} (p : VideoChunkProcessor Img) :
    VideoChunkProcessor Img × List SlideCandidate :=
  let r := flush p.detector
  ({ p with detector := r.1 }, r.2)

/-- C1 amended: across one `process_chunk` call the frame cursor
`last_frame_count` either stays unchanged (no reconstructable prefix, or
no decoded frames) or is set to the length of the newly decoded frame
list; consequently it is non-decreasing on every call on which the
decoded frame list is at least as long as the cursor, but it decreases to
the decoded length when the decoded list is shorter than the cursor (e.g.
after an init-segment restart). -/
theorem c1_cursor_characterisation {Raw Img : Type} (preprocess : Raw → Img)
    (ssim : Img → Img → ℚ) (ema : ℚ → Img → Img → Img) (encodeImage : Raw → Bytes)
    (rotate : Nat → Raw → Raw) (decode : Bytes → List Raw × ℚ)
    (p : VideoChunkProcessor Img) (chunk_bytes : Bytes) (metadata : ChunkMetadata)
    (base_ms : Int) :
    let p2 := (process_chunk preprocess ssim ema encodeImage rotate decode p
      chunk_bytes metadata base_ms).1
    (p2.last_frame_count = p.last_frame_count ∨
      (∃ data, (add_chunk p.accumulator chunk_bytes).2 = some data ∧
        p2.last_frame_count = (decode data).1.length)) ∧
    ((∀ data, (add_chunk p.accumulator chunk_bytes).2 = some data →
        p.last_frame_count ≤ (decode data).1.length) →
      p.last_frame_count ≤ p2.last_frame_count) := by
  unfold process_chunk
  dsimp only
  cases ha : (add_chunk p.accumulator chunk_bytes).2 with
  | none => exact ⟨Or.inl rfl, fun _ => Nat.le_refl _⟩
  | some data =>
    dsimp only
    split
    · exact ⟨Or.inl rfl, fun _ => Nat.le_refl _⟩
    · split <;> rename_i hframes
      · exact ⟨Or.inl rfl, fun _ => Nat.le_refl _⟩
      · split
        · exact ⟨Or.inr ⟨data, rfl, rfl⟩, fun hmono => hmono data rfl⟩
        · exact ⟨Or.inr ⟨data, rfl, rfl⟩, fun hmono => hmono data rfl⟩

/-- Identity rotation for the rational instantiation. -/
def rotQ : Nat → ℚ → ℚ := fun _ x => x

/-- A decode oracle returning one frame per byte of input, at 30 fps. -/
def decodeLen : Bytes → List ℚ × ℚ := fun data => (List.replicate data.length simLo, 30)

/-- A six-byte init-marker chunk. -/
def c1Chunk1 : Bytes := ebmlMarker ++ [0, 0]

/-- A four-byte init-marker chunk (stream restart). -/
def c1Chunk2 : Bytes := ebmlMarker

def c1P0 : VideoChunkProcessor ℚ := procInit ℚ "lecture" {}

def c1P1 : VideoChunkProcessor ℚ :=
  (process_chunk preQ ssimQ emaQ encQ rotQ decodeLen c1P0 c1Chunk1 mdQ 0).1

def c1P2 : VideoChunkProcessor ℚ :=
  (process_chunk preQ ssimQ emaQ encQ rotQ decodeLen c1P1 c1Chunk2 mdQ 0).1

/-- C1 counterexample: the frame cursor is NOT monotonic non-decreasing.
After a six-byte init chunk that decodes to six frames the cursor is 6;
a second init chunk restarts the accumulated stream, the reconstruction
decodes to only four frames, and the call sets the cursor to 4 < 6 —
exactly the claimed "decoded frame list shorter than the cursor" case. -/
theorem c1_cursor_decreases :
    c1P1.last_frame_count = 6 ∧ c1P2.last_frame_count = 4 ∧
    c1P2.last_frame_count < c1P1.last_frame_count := by decide

theorem c1_witness :
    c1P0.last_frame_count ≤ c1P1.last_frame_count ∧
    (c1P1.last_frame_count = c1P0.last_frame_count ∨
      (∃ data, (add_chunk c1P0.accumulator c1Chunk1).2 = some data ∧
        c1P1.last_frame_count = (decodeLen data).1.length)) := by
  have h := c1_cursor_characterisation preQ ssimQ emaQ encQ rotQ decodeLen c1P0
    c1Chunk1 mdQ 0
  exact ⟨h.2 (fun data hd => Nat.zero_le _), h.1⟩

end VideoKeyframes

